import Mathlib

set_option maxRecDepth 100000

/-!
Verification development for the podcast-transcriber repository
(`src/api_server.py`).  The Python source is shallowly embedded below:

* machine-level values (MD5 words, bytes) are `Nat` with explicit
  `% 2 ^ 32` / masking where overflow matters;
* Python dictionaries read with `.get` are structures with `Option` fields,
  `getD` applied at the use site exactly where the source supplies a default;
* `feedparser` `published_parsed` time tuples and `datetime` values are
  embedded as `Nat` timestamps; the embedding is order-isomorphic to the
  9-tuple lexicographic order and to chronological order of the
  corresponding UTC datetimes (for genuine feed dates the trailing tuple
  fields are determined by the leading six, and ISO-8601 strings of UTC
  datetimes compare lexicographically exactly as the datetimes compare);
* fallible Python code is embedded with `Except` / `Option`.

All definitions are executable and use structural recursion only, so that
concrete witnesses evaluate by `decide` / `rfl` in the kernel.
-/

/-! ## MD5 (`hashlib.md5(...).hexdigest()`)

A complete executable MD5 over byte lists (`List Nat`, each byte `< 256`),
all 32-bit arithmetic done on `Nat` modulo `2 ^ 32`. -/

def md5Mask : Nat := 4294967295

/-- Left-rotate a 32-bit word (value `< 2 ^ 32`) by `s` bits. -/
def rotl32 (x s : Nat) : Nat :=
  ((x <<< s) ||| (x >>> (32 - s))) &&& md5Mask

/-- The MD5 sine-derived constant table `K[i] = floor(2^32 * |sin(i+1)|)`. -/
def md5K : List Nat :=
  [3614090360, 3905402710, 606105819, 3250441966, 4118548399, 1200080426,
   2821735955, 4249261313, 1770035416, 2336552879, 4294925233, 2304563134,
   1804603682, 4254626195, 2792965006, 1236535329, 4129170786, 3225465664,
   643717713, 3921069994, 3593408605, 38016083, 3634488961, 3889429448,
   568446438, 3275163606, 4107603335, 1163531501, 2850285829, 4243563512,
   1735328473, 2368359562, 4294588738, 2272392833, 1839030562, 4259657740,
   2763975236, 1272893353, 4139469664, 3200236656, 681279174, 3936430074,
   3572445317, 76029189, 3654602809, 3873151461, 530742520, 3299628645,
   4096336452, 1126891415, 2878612391, 4237533241, 1700485571, 2399980690,
   4293915773, 2240044497, 1873313359, 4264355552, 2734768916, 1309151649,
   4149444226, 3174756917, 718787259, 3951481745]

/-- Select one of four values by `i % 4` (per-round shift tables). -/
def md5Pick4 (a b c d i : Nat) : Nat :=
  match i % 4 with
  | 0 => a
  | 1 => b
  | 2 => c
  | _ => d

/-- MD5 per-step left-rotation amounts. -/
def md5S (i : Nat) : Nat :=
  if i < 16 then md5Pick4 7 12 17 22 i
  else if i < 32 then md5Pick4 5 9 14 20 i
  else if i < 48 then md5Pick4 4 11 16 23 i
  else md5Pick4 6 10 15 21 i

/-- MD5 message-word index for step `i`. -/
def md5G (i : Nat) : Nat :=
  if i < 16 then i
  else if i < 32 then (5 * i + 1) % 16
  else if i < 48 then (3 * i + 5) % 16
  else (7 * i) % 16

/-- MD5 nonlinear function for step `i` on words `b c d`. -/
def md5F (i b c d : Nat) : Nat :=
  if i < 16 then (b &&& c) ||| (((md5Mask) ^^^ b) &&& d)
  else if i < 32 then (d &&& b) ||| (((md5Mask) ^^^ d) &&& c)
  else if i < 48 then b ^^^ c ^^^ d
  else c ^^^ (b ||| ((md5Mask) ^^^ d))

/-- Group a little-endian byte list into 32-bit words. -/
def md5LEWords : List Nat → List Nat
  | b0 :: b1 :: b2 :: b3 :: rest =>
      (b0 + (b1 <<< 8) + (b2 <<< 16) + (b3 <<< 24)) :: md5LEWords rest
  | _ => []

/-- One MD5 step on the running state `(a, b, c, d)`. -/
def md5Step (m : List Nat) (st : Nat × Nat × Nat × Nat) (i : Nat) :
    Nat × Nat × Nat × Nat :=
  match st with
  | (a, b, c, d) =>
    let f := md5F i b c d
    let g := md5G i
    let sum := (a + f + (md5K.getD i 0) + (m.getD g 0)) &&& md5Mask
    let b' := (b + rotl32 sum (md5S i)) &&& md5Mask
    (d, b', b, c)

/-- Process one 64-byte chunk into the MD5 state. -/
def md5Chunk (st : Nat × Nat × Nat × Nat) (chunk : List Nat) :
    Nat × Nat × Nat × Nat :=
  match st with
  | (a0, b0, c0, d0) =>
    let m := md5LEWords chunk
    match (List.range 64).foldl (md5Step m) (a0, b0, c0, d0) with
    | (a, b, c, d) =>
      ((a0 + a) &&& md5Mask, (b0 + b) &&& md5Mask,
       (c0 + c) &&& md5Mask, (d0 + d) &&& md5Mask)

/-- Split into 64-byte chunks (fuel-driven structural recursion). -/
def md5Chunks : Nat → List Nat → List (List Nat)
  | 0, _ => []
  | _, [] => []
  | Nat.succ fuel, l => l.take 64 :: md5Chunks fuel (l.drop 64)

/-- MD5 padding: append `0x80`, zero-pad to 56 mod 64, append the 64-bit
little-endian bit length of the original message. -/
def md5Pad (msg : List Nat) : List Nat :=
  let n := msg.length
  let zeros := (119 - (n % 64)) % 64
  let bitLen := (8 * n) % (2 ^ 64)
  msg ++ [128] ++ List.replicate zeros 0 ++
    [bitLen &&& 255, (bitLen >>> 8) &&& 255, (bitLen >>> 16) &&& 255,
     (bitLen >>> 24) &&& 255, (bitLen >>> 32) &&& 255,
     (bitLen >>> 40) &&& 255, (bitLen >>> 48) &&& 255,
     (bitLen >>> 56) &&& 255]

/-- Hex digit character for `n < 16` (lowercase, as Python hexdigest). -/
def hexDigit (n : Nat) : Char :=
  if n < 10 then Char.ofNat (48 + n) else Char.ofNat (87 + n)

/-- Two-character lowercase hex rendering of one byte. -/
def byteHex (b : Nat) : List Char :=
  [hexDigit (b / 16), hexDigit (b % 16)]

/-- Little-endian bytes of one 32-bit word. -/
def wordLEBytes (w : Nat) : List Nat :=
  [w &&& 255, (w >>> 8) &&& 255, (w >>> 16) &&& 255, (w >>> 24) &&& 255]

/-- MD5 digest of a byte list, rendered as the 32-character lowercase hex
string returned by `hashlib.md5(bytes).hexdigest()`. -/
def md5Hex (msg : List Nat) : String :=
  let padded := md5Pad msg
  let st :=
    (md5Chunks (padded.length) padded).foldl md5Chunk
      (1732584193, 4023233417, 2562383102, 271733878)
  match st with
  | (a, b, c, d) =>
    String.mk
      (((wordLEBytes a ++ wordLEBytes b ++ wordLEBytes c ++ wordLEBytes d).map
        byteHex).flatten)

/-- UTF-8 encoding of one Unicode scalar value, as `str.encode()` does. -/
def utf8Bytes (c : Nat) : List Nat :=
  if c < 128 then [c]
  else if c < 2048 then
    [192 ||| (c >>> 6), 128 ||| (c &&& 63)]
  else if c < 65536 then
    [224 ||| (c >>> 12), 128 ||| ((c >>> 6) &&& 63), 128 ||| (c &&& 63)]
  else
    [240 ||| (c >>> 18), 128 ||| ((c >>> 12) &&& 63),
     128 ||| ((c >>> 6) &&& 63), 128 ||| (c &&& 63)]

/-- UTF-8 bytes of a string (`s.encode()` in Python). -/
def strBytes (s : String) : List Nat :=
  (s.data.map (fun c => utf8Bytes c.toNat)).flatten

/-- `hashlib.md5(s.encode()).hexdigest()` for a Python `str`. -/
def md5HexStr (s : String) : String :=
  md5Hex (strBytes s)

/-! ## Python string primitives

Structural-recursion equivalents of the Python string methods the source
uses (Lean's own `String.trim`, `String.startsWith` and `String.take`
are byte-position based and do not reduce in the kernel). -/

/-- The ASCII whitespace stripped by Python `str.strip()` (the source
never feeds it non-ASCII whitespace). -/
def pyWsChar (c : Char) : Bool :=
  c = ' ' ∨ c = '\t' ∨ c = '\n' ∨ c = '\r' ∨ c = '\x0b' ∨ c = '\x0c'

/-- Python `s.strip()`. -/
def pyStrip (s : String) : String :=
  String.mk (((s.data.dropWhile pyWsChar).reverse.dropWhile pyWsChar).reverse)

/-- Python `s.startswith(pre)`. -/
def pyStartsWith (s pre : String) : Bool :=
  pre.data.isPrefixOf s.data

/-- Python `s[:n]` for a nonnegative `n`. -/
def pyTake (s : String) (n : Nat) : String :=
  String.mk (s.data.take n)

/-! ## Data model: feeds, entries, episodes, status records

`feedparser` entries (`src/api_server.py`, consumed in `get_episodes` and
`start_transcription`).  `Option` fields model attributes that may be
absent; `published_parsed` time-tuples are embedded as `Nat` timestamps
(order-isomorphic, see the header). -/

structure Enclosure where
  type : String
  href : String
deriving DecidableEq, Repr

structure Entry where
  entryId : Option String
  title : Option String
  published : Option String
  published_parsed : Option Nat
  enclosures : List Enclosure
deriving DecidableEq, Repr

structure Feed where
  name : String
  rss : String
  entries : List Entry
deriving DecidableEq, Repr

/-- Status Record persisted in `status.json`, as written by
`transcribe_episode` (fields of the literal dicts at lines 256-262 and
276-282 of `src/api_server.py`). -/
structure StatusRec where
  status : String
  transcript_path : Option String
  completed_at : Option String
  error : Option String
  failed_at : Option String
  podcast_name : String
  episode_title : String
deriving DecidableEq, Repr

/-- The Status Store mapping (a Python dict keyed by episode ID, in
insertion order). -/
def StatusMap : Type := List (String × StatusRec)
deriving DecidableEq

/-- Python `d[k] = v` on a dict: replaces the value in place when the key
exists, otherwise appends the new key at the end. -/
def pyInsert (m : List (String × StatusRec)) (k : String) (v : StatusRec) :
    List (String × StatusRec) :=
  match m with
  | [] => [(k, v)]
  | (k', v') :: rest =>
    if k' = k then (k, v) :: rest else (k', v') :: pyInsert rest k v

/-- Python `d.get(k)` on a dict embedded as an ordered association list. -/
def pyLookup (m : List (String × StatusRec)) (k : String) : Option StatusRec :=
  match m with
  | [] => none
  | (k', v') :: rest => if k' = k then some v' else pyLookup rest k

/-- `status.get(episode_id, {}).get("status", "pending")`
(`src/api_server.py:386`). -/
def statusOf (m : List (String × StatusRec)) (k : String) : String :=
  match pyLookup m k with
  | some r => r.status
  | none => "pending"

/-- Episode dict built by `get_episodes` (`src/api_server.py:379-387`).
`pub_date_parsed` holds the embedded timestamp of the
`pub_date_parsed.isoformat()` string (`none` models the JSON `null`). -/
structure Episode where
  id : String
  podcast_name : String
  title : String
  pub_date : String
  pub_date_parsed : Option Nat
  audio_url : String
  status : String
deriving DecidableEq, Repr

/-! ## Episode Identifier Deriver -/

/-- ID derivation inlined in `get_episodes` (`src/api_server.py:351-364`):
`base_id = entry.get('id', '')`; if truthy use it, otherwise the first 12
hex characters of `md5(title.encode())` with `"Unknown Title"` standing in
for a missing title; prefixed by the first 8 hex characters of
`md5(feed['rss'].encode())` and an underscore. -/
def episodeIdOfEntry (rss : String) (e : Entry) : String :=
  let base_id := e.entryId.getD ""
  let title := e.title.getD "Unknown Title"
  let episode_base :=
    if base_id ≠ "" then base_id else pyTake (md5HexStr title) 12
  let feed_hash := pyTake (md5HexStr rss) 8
  feed_hash ++ "_" ++ episode_base

/-- The same derivation inlined a second time in `start_transcription`
(`src/api_server.py:435-448`), transcribed independently. -/
def episodeIdTranscribe (rss : String) (e : Entry) : String :=
  let base_id := e.entryId.getD ""
  let title := e.title.getD "Unknown Title"
  let episode_base :=
    if base_id ≠ "" then base_id else pyTake (md5HexStr title) 12
  let feed_hash := pyTake (md5HexStr rss) 8
  feed_hash ++ "_" ++ episode_base

/-- The Episode Identifier Deriver as worded by the spec (section 4.1):
`episode_base` is the provider-supplied entry identifier when present and
non-empty, otherwise the first 12 hex characters of a content hash (MD5)
of the entry's title (placeholder `"Unknown Title"` when absent);
`feed_hash` is the first 8 hex characters of a content hash of the feed
URL; the result is `"{feed_hash}_{episode_base}"`. -/
def specDeriveId (feed_url : String) (e : Entry) : String :=
  let episode_base :=
    match e.entryId with
    | some s => if s = "" then pyTake (md5HexStr (e.title.getD "Unknown Title")) 12 else s
    | none => pyTake (md5HexStr (e.title.getD "Unknown Title")) 12
  pyTake (md5HexStr feed_url) 8 ++ "_" ++ episode_base

/-! ## Feed Aggregator (`get_episodes`) -/

/-- First enclosure whose MIME type starts with `audio/`
(`src/api_server.py:341-349`; the loop breaks at the first match, and an
empty enclosure list leaves `audio_url = None`). -/
def firstAudioUrl (encls : List Enclosure) : Option String :=
  match encls with
  | [] => none
  | enc :: rest =>
    if pyStartsWith enc.type "audio/" then some enc.href else firstAudioUrl rest

/-- Sort key of the per-feed pre-sort:
`entry.get('published_parsed', (0,0,0,0,0,0,0,0,0))`
(`src/api_server.py:333-337`); an absent attribute sorts as the all-zero
tuple, embedded as timestamp `0`. -/
def entrySortKey (e : Entry) : Nat :=
  e.published_parsed.getD 0

/-- Stable descending insertion of `x` into an already-descending list:
`x` is placed after every element whose key is at least `key x`. -/
def insertDescBy (key : Entry → Nat) (x : Entry) : List Entry → List Entry
  | [] => [x]
  | y :: ys =>
    if key x ≤ key y then y :: insertDescBy key x ys else x :: y :: ys

/-- Stable descending sort; extensionally equal to Python
`sorted(entries, key=..., reverse=True)` (both are stable descending
sorts, and stable sorting by a fixed key is a unique function). -/
def sortEntriesDesc (entries : List Entry) : List Entry :=
  entries.foldr (insertDescBy entrySortKey) []

/-- The episode dict appended for one entry (`src/api_server.py:379-389`). -/
def episodeOfEntry (st : List (String × StatusRec)) (podcast rss : String)
    (url : String) (e : Entry) : Episode :=
  let eid := episodeIdOfEntry rss e
  { id := eid
    podcast_name := podcast
    title := e.title.getD "Unknown Title"
    pub_date := e.published.getD ""
    pub_date_parsed := e.published_parsed
    audio_url := url
    status := statusOf st eid }

/-- The per-entry loop of `get_episodes` (`src/api_server.py:339-389`) on
the date-sorted entry list: skip entries without an audio enclosure
(`continue`), stop the whole feed at the first remaining entry with a
parsed date older than the cutoff (`break`), and append an episode dict
otherwise. -/
def scanEntries (st : List (String × StatusRec)) (cutoff : Nat)
    (podcast rss : String) : List Entry → List Episode
  | [] => []
  | e :: rest =>
    match firstAudioUrl e.enclosures with
    | none => scanEntries st cutoff podcast rss rest
    | some url =>
      match e.published_parsed with
      | some d =>
        if d < cutoff then []
        else episodeOfEntry st podcast rss url e ::
          scanEntries st cutoff podcast rss rest
      | none => episodeOfEntry st podcast rss url e ::
          scanEntries st cutoff podcast rss rest

/-- Episodes contributed by one feed: the empty-entries guard
(`continue`, line 326) followed by the date-descending pre-sort and scan. -/
def feedEpisodes (st : List (String × StatusRec)) (cutoff : Nat)
    (f : Feed) : List Episode :=
  if f.entries.isEmpty then []
  else scanEntries st cutoff f.name f.rss (sortEntriesDesc f.entries)

/-- `all_episodes` accumulated across feeds (`src/api_server.py:312-392`). -/
def aggregateEpisodes (feeds : List Feed) (st : List (String × StatusRec))
    (cutoff : Nat) : List Episode :=
  feeds.foldl (fun acc f => acc ++ feedEpisodes st cutoff f) []

/-- Failure mode of the final sort. -/
inductive SortErr where
  | typeError
deriving DecidableEq, Repr

/-- Key of the final sort: `x.get('pub_date_parsed', '')`
(`src/api_server.py:395`).  The dict built at lines 379-387 always
contains the key, so the value is either the ISO date string or `None`;
the `''` default never applies. -/
def episodeSortKey (ep : Episode) : Option Nat :=
  ep.pub_date_parsed

/-- Stable descending insertion for episodes by their ISO date strings
(embedded timestamps). -/
def insertEpisodeDesc (x : Episode) : List Episode → List Episode
  | [] => [x]
  | y :: ys =>
    if (episodeSortKey x).getD 0 ≤ (episodeSortKey y).getD 0 then
      y :: insertEpisodeDesc x ys
    else x :: y :: ys

/-- Stable descending sort of episodes by ISO date string (the string
order coincides with the embedded timestamp order, see the header). -/
def sortEpisodesDesc (eps : List Episode) : List Episode :=
  eps.foldr insertEpisodeDesc []

/-- Python `list[:limit]` for an `int` limit: a nonnegative limit takes a
prefix, a negative limit drops `|limit|` elements from the end. -/
def pySlice (l : List Episode) (limit : Int) : List Episode :=
  if 0 ≤ limit then l.take limit.toNat
  else l.take (l.length - limit.natAbs)

/-- `all_episodes.sort(key=lambda x: x.get('pub_date_parsed', ''), reverse=True)`
(`src/api_server.py:395`).  CPython `list.sort` compares every element at
least once when the list has two or more elements, and every comparison
involving `None` (against `None` or against a `str`) raises `TypeError`;
when every key is a string the sort is a stable descending sort.  The
model therefore fails with `TypeError` exactly when the list has at least
two elements and some key is `None`. -/
def pySortEpisodes (eps : List Episode) : Except SortErr (List Episode) :=
  if 2 ≤ eps.length ∧ eps.any (fun ep => ep.pub_date_parsed.isNone) then
    Except.error SortErr.typeError
  else
    Except.ok (sortEpisodesDesc eps)

/-- `GET /episodes` (`src/api_server.py:299-400`): aggregate across feeds,
sort by publication date, apply the limit.  `cutoff` embeds
`datetime.now(timezone.utc) - timedelta(days=days)`.  The
`cleanup_old_tasks()` call at line 308 only mutates the task registry and
does not affect the response, so it is modelled separately. -/
def getEpisodes (feeds : List Feed) (st : List (String × StatusRec))
    (cutoff : Nat) (limit : Int) : Except SortErr (List Episode) :=
  match pySortEpisodes (aggregateEpisodes feeds st cutoff) with
  | Except.error e => Except.error e
  | Except.ok sorted => Except.ok (pySlice sorted limit)

/-! ## Transcript Normalizer (`transcribe_with_gladia`, lines 137-218)

One iteration of the poll loop, from the decoded JSON response `data` to
either a returned transcript, a raised error, or another sleep-and-poll
round.  JSON numbers (utterance start times) are embedded as exact
rationals `JsonNum` (an integer numerator over a positive natural
denominator); the Python float arithmetic `int(x // 60)`, `int(x % 60)`,
`int((x % 1) * 1000)` is exact rational floor arithmetic on the decimal
values the provider sends (binary rounding of non-representable decimals
is not modelled). -/

/-- A JSON number, as an exact rational `num / den` with `den` positive
(e.g. `65.5` is `⟨655, 10⟩`). -/
structure JsonNum where
  num : Int
  den : Nat := 1
deriving DecidableEq, Repr

structure Utterance where
  speaker : Option String
  text : Option String
  start : Option JsonNum
deriving DecidableEq

structure Segment where
  speaker : Option String
  text : Option String
deriving DecidableEq

/-- The value of `data["result"]["transcription"]`: either a JSON object
or (modelled for the `isinstance(..., dict)` else-branch) a bare string. -/
inductive TransValue where
  | dict (utterances : Option (List Utterance))
      (full_transcript : Option String) (segments : Option (List Segment))
  | nondict (raw : String)
deriving DecidableEq

/-- The value of `data["result"]`: `none` embeds a falsy value (`None` or
`{}`, which behave identically here), `some` a non-empty JSON object.
The `full_transcript` field records a root-level `full_transcript` key,
which the source never reads. -/
structure ResultDict where
  transcription : Option TransValue
  utterances : Option (List Utterance)
  segments : Option (List Segment)
  full_transcript : Option String
deriving DecidableEq

/-- One decoded poll response. -/
structure GladiaResponse where
  status : String
  result : Option ResultDict
  error_code : Option String
deriving DecidableEq

/-- Outcome of one poll-loop iteration. -/
inductive NormErr where
  | noTranscriptData
  | providerError (code : String)
deriving DecidableEq, Repr

inductive PollStep where
  | ret (transcript : String)
  | raiseErr (e : NormErr)
  | again
deriving DecidableEq, Repr

/-- Python `f"{n:0wd}"`: zero-pad to total width `w`, the sign included. -/
def pyZeroPadInt (w : Nat) (n : Int) : String :=
  if n < 0 then
    let digits := toString n.natAbs
    "-" ++ String.mk (List.replicate ((w - 1) - digits.length) '0') ++ digits
  else
    let digits := toString n.toNat
    String.mk (List.replicate (w - digits.length) '0') ++ digits

/-- `MM:SS.mmm` timestamp (`src/api_server.py:158-162`):
`minutes = int(start // 60)`, `seconds = int(start % 60)`,
`milliseconds = int((start % 1) * 1000)`, zero-padded to 2/2/3 digits.
For `x = n / d` exactly: `int(x // 60) = ⌊x / 60⌋ = fdiv n (60 d)`;
`x % 60 = x - 60⌊x / 60⌋ ∈ [0, 60)` so `int(x % 60) = ⌊x⌋ - 60⌊x / 60⌋`;
`x % 1 ∈ [0, 1)` so `int((x % 1) * 1000) = ⌊1000 x⌋ - 1000⌊x⌋`
(see `fmtTimestamp_matches_floor_formulas` below). -/
def fmtTimestamp (start : JsonNum) : String :=
  let n := start.num
  let d := start.den
  let minutes : Int := Int.fdiv n (60 * d)
  let seconds : Int := Int.fdiv n d - 60 * Int.fdiv n (60 * d)
  let milliseconds : Int := Int.fdiv (1000 * n) d - 1000 * Int.fdiv n d
  pyZeroPadInt 2 minutes ++ ":" ++ pyZeroPadInt 2 seconds ++ "." ++
    pyZeroPadInt 3 milliseconds

/-- Render one utterance line pair, or nothing when the text is empty
after stripping (`src/api_server.py:151-164`). -/
def utteranceLine (u : Utterance) : List String :=
  let speaker := u.speaker.getD "Unknown"
  let text := u.text.getD ""
  let start := u.start.getD { num := 0 }
  if pyStrip text ≠ "" then
    ["Speaker " ++ speaker ++ " | " ++ fmtTimestamp start ++ "\n" ++
      text ++ "\n\n"]
  else []

/-- `"".join(lines).strip()` for the utterance shape. -/
def renderUtterances (us : List Utterance) : String :=
  pyStrip (String.join ((us.map utteranceLine).flatten))

/-- Render one segment line, skipping empty text
(`src/api_server.py:172-177`). -/
def segmentLine (s : Segment) : List String :=
  let speaker := s.speaker.getD "Unknown"
  let text := s.text.getD ""
  if pyStrip text ≠ "" then ["[" ++ speaker ++ "]: " ++ text ++ "\n"] else []

/-- `"".join(lines).strip()` for the segment shape. -/
def renderSegments (segs : List Segment) : String :=
  pyStrip (String.join ((segs.map segmentLine).flatten))

/-- The `status == "done"` branch (`src/api_server.py:145-210`), shape
probing transcribed clause by clause, including the unreachable repeated
`full_transcript` check at line 179 and the fall-through (no branch
taken) when `transcription` is a dict containing none of the three keys. -/
def normalizeDone (result : Option ResultDict) : PollStep :=
  match result with
  | some rd =>
    match rd.transcription with
    | some tv =>
      match tv with
      | TransValue.dict us ft segs =>
        match us with
        | some us' => PollStep.ret (renderUtterances us')
        | none =>
          match ft with
          | some ft' => PollStep.ret ft'
          | none =>
            match segs with
            | some segs' => PollStep.ret (renderSegments segs')
            | none =>
              match ft with
              | some ft' => PollStep.ret ft'
              | none => PollStep.again
      | TransValue.nondict raw => PollStep.ret raw
    | none =>
      match rd.utterances with
      | some us' => PollStep.ret (renderUtterances us')
      | none =>
        match rd.segments with
        | some segs' => PollStep.ret (renderSegments segs')
        | none => PollStep.raiseErr NormErr.noTranscriptData
  | none => PollStep.raiseErr NormErr.noTranscriptData

/-- One iteration of the poll loop (`src/api_server.py:137-215`): `done`
dispatches on the result shape, `error` raises a provider error with
`data.get("error_code", "Unknown error")`, any other status sleeps and
polls again. -/
def pollStep (data : GladiaResponse) : PollStep :=
  if data.status = "done" then normalizeDone data.result
  else if data.status = "error" then
    PollStep.raiseErr (NormErr.providerError (data.error_code.getD "Unknown error"))
  else PollStep.again

/-! ## Task Registry (`background_tasks`, `cleanup_old_tasks`) -/

/-- A Task Record (`background_tasks[task_id]`,
`src/api_server.py:475-481`).  `created_at` is the embedded timestamp of
the stored ISO string (`datetime.fromisoformat` of it in
`cleanup_old_tasks` recovers the same instant). -/
structure TaskRec where
  type : String
  status : String
  message : String
  episode_title : String
  created_at : Nat
deriving DecidableEq, Repr

/-- `cleanup_old_tasks` (`src/api_server.py:38-51`): first collect the
IDs of tasks whose status is `completed` or `error` and whose age
`(current_time - created_at).total_seconds()` exceeds 3600, then delete
exactly those keys.  `now` and ages are in seconds. -/
def staleTaskIds (now : Nat) (tasks : List (String × TaskRec)) : List String :=
  (tasks.filter (fun p =>
    (p.2.status = "completed" ∨ p.2.status = "error") ∧
      3600 < (now : Int) - (p.2.created_at : Int))).map (fun p => p.1)

def cleanup_old_tasks (now : Nat) (tasks : List (String × TaskRec)) :
    List (String × TaskRec) :=
  tasks.filter (fun p => p.1 ∉ staleTaskIds now tasks)

/-! ## `POST /transcribe/{episode_id}` (`start_transcription`, lines 402-489) -/

/-- The episode payload assembled when the requested ID matches
(`src/api_server.py:451-456`). -/
structure TargetEpisode where
  id : String
  podcast_name : String
  title : String
  audio_url : String
deriving DecidableEq, Repr

/-- HTTP error raised by a request handler. -/
structure HTTPError where
  status_code : Nat
  detail : String
deriving DecidableEq, Repr

/-- Inner entry loop of `start_transcription` (`src/api_server.py:423-457`):
skip entries without an audio enclosure, rebuild the episode ID, stop at
the first match. -/
def searchEntries (rss podcast eid : String) : List Entry → Option TargetEpisode
  | [] => none
  | e :: rest =>
    match firstAudioUrl e.enclosures with
    | none => searchEntries rss podcast eid rest
    | some url =>
      if episodeIdTranscribe rss e = eid then
        some { id := eid
               podcast_name := podcast
               title := e.title.getD "Unknown Title"
               audio_url := url }
      else searchEntries rss podcast eid rest

/-- Outer feed loop (`src/api_server.py:409-463`): the empty-entries
`continue`, then the entry search, stopping at the first feed that
yields a target episode. -/
def searchFeeds (eid : String) : List Feed → Option TargetEpisode
  | [] => none
  | f :: fs =>
    if f.entries.isEmpty then searchFeeds eid fs
    else
      match searchEntries f.rss f.name eid f.entries with
      | some t => some t
      | none => searchFeeds eid fs

/-- Response body `{"task_id": ..., "message": ...}`. -/
structure TranscribeResp where
  task_id : String
  message : String
deriving DecidableEq, Repr

/-- Update a task map at a key (Python dict assignment). -/
def pyInsertTask (m : List (String × TaskRec)) (k : String) (v : TaskRec) :
    List (String × TaskRec) :=
  match m with
  | [] => [(k, v)]
  | (k', v') :: rest =>
    if k' = k then (k, v) :: rest else (k', v') :: pyInsertTask rest k v

/-- `episode_id in status and status[episode_id].get("status") == "completed"`
(`src/api_server.py:470`). -/
def alreadyCompleted (st : List (String × StatusRec)) (eid : String) : Bool :=
  match pyLookup st eid with
  | some r => r.status == "completed"
  | none => false

/-- `start_transcription` (`src/api_server.py:402-489`): resolve the
episode ID against the feeds (404 when nothing matches), reject IDs whose
Status Store record is `completed` (400), otherwise register a pending
Task Record keyed `"transcribe_{episode_id}_{int(time.time())}"` and
answer with the task ID.  `epochNow` embeds `int(time.time())` and
`nowIso` the `datetime.now().isoformat()` stored in `created_at`.  The
returned task map is unchanged on both error paths: the record is created
only after both guards pass. -/
def start_transcription (feeds : List Feed) (st : List (String × StatusRec))
    (tasks : List (String × TaskRec)) (eid : String) (epochNow : Nat)
    (nowIso : Nat) :
    List (String × TaskRec) × Except HTTPError TranscribeResp :=
  match searchFeeds eid feeds with
  | none => (tasks, Except.error { status_code := 404, detail := "Episode not found" })
  | some target =>
    if alreadyCompleted st eid then
      (tasks, Except.error { status_code := 400, detail := "Episode already transcribed" })
    else
      let task_id := "transcribe_" ++ eid ++ "_" ++ toString epochNow
      let taskRec : TaskRec :=
        { type := "transcribe"
          status := "pending"
          message := "Starting..."
          episode_title := target.title
          created_at := nowIso }
      (pyInsertTask tasks task_id taskRec,
       Except.ok { task_id := task_id, message := "Transcription task started" })

/-! ## Transcription Job Runner (`transcribe_episode`, lines 228-285)

The job's interactions with the outside world (directory creation,
download, the provider, the transcript file, the two Status Store
round-trips) are supplied as an oracle `JobEnv` of per-call outcomes; an
`Except.error` value is the exception (its `str(e)`) the corresponding
call raises.  Task-registry mutations on `background_tasks[task_id]` are
modelled on the record for `task_id` (an absent record raises `KeyError`,
as the subscript does). -/

/-- Input dict `episode_data` (read with `.get` and defaults at
`src/api_server.py:234-237`). -/
structure EpisodeData where
  podcast_name : Option String
  title : Option String
  audio_url : Option String
  id : Option String
deriving DecidableEq, Repr

/-- Outcomes of the job's fallible external calls, one field per call
site in source order.  `loadRes2`/`saveRes2` are the `load_status` /
`save_status` calls inside the `except` handler. -/
structure JobEnv where
  makedirsRes : Except String Unit
  downloadRes : Except String String
  gladiaRes : Except String String
  saveTransRes : Except String String
  loadRes1 : Except String (List (String × StatusRec))
  saveRes1 : Except String Unit
  loadRes2 : Except String (List (String × StatusRec))
  saveRes2 : Except String Unit

/-- Observable outcome of one `transcribe_episode` run: the final state
of `background_tasks[task_id]`, the successful `save_status` payloads in
order, the exception escaping the function (if any), and the returned
value (`some (some p)` a path, `some none` the handler's `return None`,
`none` when an exception propagates). -/
structure JobResult where
  task : Option TaskRec
  saves : List (List (String × StatusRec))
  propagated : Option String
  retVal : Option (Option String)
deriving DecidableEq, Repr

/-- `background_tasks[task_id]['status'] = v`: `KeyError` when the record
is absent. -/
def taskSetStatus (t : Option TaskRec) (v : String) :
    Except String (Option TaskRec) :=
  match t with
  | none => Except.error "KeyError"
  | some r => Except.ok (some { r with status := v })

/-- `background_tasks[task_id]['message'] = v`. -/
def taskSetMessage (t : Option TaskRec) (v : String) :
    Except String (Option TaskRec) :=
  match t with
  | none => Except.error "KeyError"
  | some r => Except.ok (some { r with message := v })

/-- The error Status Record written by the handler
(`src/api_server.py:276-282`). -/
def errorStatusRec (e nowIso pn et : String) : StatusRec :=
  { status := "error"
    transcript_path := none
    completed_at := none
    error := some e
    failed_at := some nowIso
    podcast_name := pn
    episode_title := et }

/-- The completed Status Record written on success
(`src/api_server.py:256-262`). -/
def completedStatusRec (tp nowIso pn et : String) : StatusRec :=
  { status := "completed"
    transcript_path := some tp
    completed_at := some nowIso
    error := none
    failed_at := none
    podcast_name := pn
    episode_title := et }

/-- The `except Exception as e` handler (`src/api_server.py:270-285`):
mark the Task Record `error` with `f'Error: {str(e)}'`, then write an
error Status Record; an exception raised by any of these steps escapes
the function.  When the Task Record is absent the very first handler
statement raises `KeyError`, before the (then unassigned) episode
variables would raise `NameError` — matching Python statement order. -/
def jobHandler (env : JobEnv) (task : Option TaskRec)
    (eid pn et nowIso e : String) : JobResult :=
  match taskSetStatus task "error" with
  | Except.error ke =>
    { task := task, saves := [], propagated := some ke, retVal := none }
  | Except.ok t1 =>
    match taskSetMessage t1 ("Error: " ++ e) with
    | Except.error ke =>
      { task := t1, saves := [], propagated := some ke, retVal := none }
    | Except.ok t2 =>
      match env.loadRes2 with
      | Except.error e2 =>
        { task := t2, saves := [], propagated := some e2, retVal := none }
      | Except.ok st =>
        let st' := pyInsert st eid (errorStatusRec e nowIso pn et)
        match env.saveRes2 with
        | Except.error e2 =>
          { task := t2, saves := [], propagated := some e2, retVal := none }
        | Except.ok _ =>
          { task := t2, saves := [st'], propagated := none, retVal := some none }

/-- `transcribe_episode` (`src/api_server.py:228-285`), the `try` body
statement by statement; every raise transfers to `jobHandler`.  The first
two handler invocations pass placeholder episode variables: they are
never read there, because the handler's own first statement raises
`KeyError` for the same absent Task Record. -/
def transcribe_episode (env : JobEnv) (ed : EpisodeData)
    (task : Option TaskRec) (nowIso : String) : JobResult :=
  match taskSetStatus task "running" with
  | Except.error e => jobHandler env task "" "" "" nowIso e
  | Except.ok t1 =>
  match taskSetMessage t1 "Starting transcription..." with
  | Except.error e => jobHandler env t1 "" "" "" nowIso e
  | Except.ok t2 =>
  let podcast_name := ed.podcast_name.getD "podcast"
  let episode_title := ed.title.getD "episode"
  let audio_url := ed.audio_url.getD ""
  let episode_id := ed.id.getD ""
  if audio_url = "" then
    jobHandler env t2 episode_id podcast_name episode_title nowIso
      "No audio URL provided"
  else
  match env.makedirsRes with
  | Except.error e =>
    jobHandler env t2 episode_id podcast_name episode_title nowIso e
  | Except.ok _ =>
  match taskSetMessage t2 "Downloading audio..." with
  | Except.error e =>
    jobHandler env t2 episode_id podcast_name episode_title nowIso e
  | Except.ok t3 =>
  match env.downloadRes with
  | Except.error e =>
    jobHandler env t3 episode_id podcast_name episode_title nowIso e
  | Except.ok _ =>
  match taskSetMessage t3 "Transcribing audio..." with
  | Except.error e =>
    jobHandler env t3 episode_id podcast_name episode_title nowIso e
  | Except.ok t4 =>
  match env.gladiaRes with
  | Except.error e =>
    jobHandler env t4 episode_id podcast_name episode_title nowIso e
  | Except.ok _ =>
  match env.saveTransRes with
  | Except.error e =>
    jobHandler env t4 episode_id podcast_name episode_title nowIso e
  | Except.ok transcript_path =>
  match env.loadRes1 with
  | Except.error e =>
    jobHandler env t4 episode_id podcast_name episode_title nowIso e
  | Except.ok st =>
  let st' := pyInsert st episode_id
    (completedStatusRec transcript_path nowIso podcast_name episode_title)
  match env.saveRes1 with
  | Except.error e =>
    jobHandler env t4 episode_id podcast_name episode_title nowIso e
  | Except.ok _ =>
  match taskSetStatus t4 "completed" with
  | Except.error e =>
    jobHandler env t4 episode_id podcast_name episode_title nowIso e
  | Except.ok t5 =>
  match taskSetMessage t5 ("Transcription complete: " ++ transcript_path) with
  | Except.error e =>
    jobHandler env t5 episode_id podcast_name episode_title nowIso e
  | Except.ok t6 =>
    { task := t6
      saves := [st']
      propagated := none
      retVal := some (some transcript_path) }

/-! ## Status Store file layer (`load_status` / `save_status`, lines 61-72)

`save_status` is `open(STATUS_FILE, 'w')` followed by `json.dump`: the
open truncates the file, the dump then streams the serialization.  It is
modelled as the sequence of file operations it performs; an interrupted
save is the application of a proper prefix of that sequence.  The store
content is a two-level string map (every value the program writes is a
string), serialized exactly as `json.dump(..., indent=2)` renders it.
`json.load` is modelled by an executable parser for that object subset of
JSON (sufficient for every content the store can hold). -/

/-- `json.dumps` escape for one character (`ensure_ascii=True`). -/
def jsonEscChar (c : Char) : List Char :=
  if c = '"' then ['\\', '"']
  else if c = '\\' then ['\\', '\\']
  else if c = '\n' then ['\\', 'n']
  else if c = '\r' then ['\\', 'r']
  else if c = '\t' then ['\\', 't']
  else if c = '\x08' then ['\\', 'b']
  else if c = '\x0c' then ['\\', 'f']
  else if c.toNat < 32 ∨ 126 < c.toNat then
    if c.toNat < 65536 then
      '\\' :: 'u' :: (byteHex (c.toNat / 256) ++ byteHex (c.toNat % 256))
    else
      let v := c.toNat - 65536
      let hi := 55296 + (v >>> 10)
      let lo := 56320 + (v &&& 1023)
      '\\' :: 'u' :: (byteHex (hi / 256) ++ byteHex (hi % 256)) ++
        ('\\' :: 'u' :: (byteHex (lo / 256) ++ byteHex (lo % 256)))
  else [c]

/-- A JSON string literal. -/
def jsonStr (s : String) : String :=
  "\"" ++ String.mk ((s.data.map jsonEscChar).flatten) ++ "\""

/-- The store content as written: episode ID to a flat string record. -/
def SJMap : Type := List (String × List (String × String))
deriving DecidableEq

/-- One nested record as `json.dump(..., indent=2)` renders it (items at
four spaces, closing brace at two). -/
def serializeRec (r : List (String × String)) : String :=
  if r.isEmpty then "\x7b\x7d"
  else
    "\x7b\n" ++
      String.intercalate ",\n"
        (r.map (fun p => "    " ++ jsonStr p.1 ++ ": " ++ jsonStr p.2)) ++
      "\n  \x7d"

/-- The whole store as `json.dump(status, f, indent=2)` renders it. -/
def serializeStatus (m : SJMap) : String :=
  if m.isEmpty then "\x7b\x7d"
  else
    "\x7b\n" ++
      String.intercalate ",\n"
        (m.map (fun p => "  " ++ jsonStr p.1 ++ ": " ++ serializeRec p.2)) ++
      "\n\x7d"

/-- File operations performed by `save_status`. -/
inductive FileOp where
  | truncate
  | writeAll (s : String)
deriving DecidableEq, Repr

/-- `save_status(status)` (`src/api_server.py:69-72`): `open(..., 'w')`
truncates, then `json.dump` writes the serialization.  (`json.dump`
actually streams in finer-grained chunks, which only adds further
intermediate states; the truncate/write split already exhibits every
behaviour the claims need.) -/
def save_status_ops (m : SJMap) : List FileOp :=
  [FileOp.truncate, FileOp.writeAll (serializeStatus m)]

def applyFileOp (content : String) : FileOp → String
  | FileOp.truncate => ""
  | FileOp.writeAll s => content ++ s

/-- File content after a sequence of operations. -/
def applyFileOps (content : String) (ops : List FileOp) : String :=
  ops.foldl applyFileOp content

/-- JSON whitespace skip. -/
def skipWs : List Char → List Char
  | [] => []
  | c :: cs =>
    if c = ' ' ∨ c = '\n' ∨ c = '\t' ∨ c = '\r' then skipWs cs else c :: cs

/-- Hex digit value. -/
def hexVal (c : Char) : Option Nat :=
  if 48 ≤ c.toNat ∧ c.toNat ≤ 57 then some (c.toNat - 48)
  else if 97 ≤ c.toNat ∧ c.toNat ≤ 102 then some (c.toNat - 87)
  else if 65 ≤ c.toNat ∧ c.toNat ≤ 70 then some (c.toNat - 55)
  else none

/-- One escape sequence after a backslash. -/
def parseEsc : List Char → Option (Char × List Char)
  | '"' :: cs => some ('"', cs)
  | '\\' :: cs => some ('\\', cs)
  | '/' :: cs => some ('/', cs)
  | 'n' :: cs => some ('\n', cs)
  | 'r' :: cs => some ('\r', cs)
  | 't' :: cs => some ('\t', cs)
  | 'b' :: cs => some ('\x08', cs)
  | 'f' :: cs => some ('\x0c', cs)
  | 'u' :: a :: b :: c :: d :: cs =>
    match hexVal a, hexVal b, hexVal c, hexVal d with
    | some va, some vb, some vc, some vd =>
      some (Char.ofNat (((va * 16 + vb) * 16 + vc) * 16 + vd), cs)
    | _, _, _, _ => none
  | _ => none

/-- String body after the opening quote, up to the closing quote. -/
def parseStrBody : Nat → List Char → Option (List Char × List Char)
  | 0, _ => none
  | _, [] => none
  | Nat.succ f, c :: cs =>
    if c = '"' then some ([], cs)
    else if c = '\\' then
      match parseEsc cs with
      | some (ch, rest) =>
        match parseStrBody f rest with
        | some (s, r) => some (ch :: s, r)
        | none => none
      | none => none
    else
      match parseStrBody f cs with
      | some (s, r) => some (c :: s, r)
      | none => none

/-- A JSON string literal. -/
def parseJStr (fuel : Nat) : List Char → Option (String × List Char)
  | '"' :: cs =>
    match parseStrBody fuel cs with
    | some (s, r) => some (String.mk s, r)
    | none => none
  | _ => none

/-- Comma-separated `"key": "value"` pairs up to the closing brace. -/
def parseInnerPairs : Nat → List Char → Option (List (String × String) × List Char)
  | 0, _ => none
  | Nat.succ f, l =>
    match parseJStr f (skipWs l) with
    | some (k, r1) =>
      match skipWs r1 with
      | ':' :: r2 =>
        match parseJStr f (skipWs r2) with
        | some (v, r3) =>
          match skipWs r3 with
          | ',' :: r4 =>
            match parseInnerPairs f r4 with
            | some (ps, r5) => some ((k, v) :: ps, r5)
            | none => none
          | '}' :: r4 => some ([(k, v)], r4)
          | _ => none
        | none => none
      | _ => none
    | none => none

/-- A JSON object whose values are strings. -/
def parseInnerObj (fuel : Nat) (l : List Char) :
    Option (List (String × String) × List Char) :=
  match skipWs l with
  | '{' :: r1 =>
    match skipWs r1 with
    | '}' :: r2 => some ([], r2)
    | _ => parseInnerPairs fuel r1
  | _ => none

/-- Comma-separated `"key": { ... }` pairs up to the closing brace. -/
def parseTopPairs : Nat → List Char → Option (SJMap × List Char)
  | 0, _ => none
  | Nat.succ f, l =>
    match parseJStr f (skipWs l) with
    | some (k, r1) =>
      match skipWs r1 with
      | ':' :: r2 =>
        match parseInnerObj f r2 with
        | some (v, r3) =>
          match skipWs r3 with
          | ',' :: r4 =>
            match parseTopPairs f r4 with
            | some (ps, r5) => some ((k, v) :: ps, r5)
            | none => none
          | '}' :: r4 => some ([(k, v)], r4)
          | _ => none
        | none => none
      | _ => none
    | none => none

/-- The store's JSON document: an object of objects of strings. -/
def parseStatusJson (s : String) : Option SJMap :=
  match skipWs s.data with
  | '{' :: r1 =>
    match skipWs r1 with
    | '}' :: r2 => if (skipWs r2).isEmpty then some [] else none
    | _ =>
      match parseTopPairs (s.length + 1) r1 with
      | some (m, rest) => if (skipWs rest).isEmpty then some m else none
      | none => none
  | _ => none

/-- `load_status` (`src/api_server.py:61-67`) on a file content: an
absent file yields `{}` (the caught `FileNotFoundError`); any content
`json.load` cannot parse raises `JSONDecodeError`, which `load_status`
does not catch. -/
def load_status_file (content : Option String) : Except String SJMap :=
  match content with
  | none => Except.ok []
  | some s =>
    match parseStatusJson s with
    | some m => Except.ok m
    | none => Except.error "JSONDecodeError"

/-! ## Concrete fixtures used by witnesses and counterexamples -/

/-- An `audio/` enclosure. -/
def audEnc : Enclosure := { type := "audio/mpeg", href := "http://x/a.mp3" }

/-- Entry with a parsed date of 50 and an audio enclosure. -/
def entOld : Entry :=
  { entryId := some "old", title := some "Old", published := some "Mon, old"
    published_parsed := some 50, enclosures := [audEnc] }

/-- Entry with an audio enclosure but no parsed publication date. -/
def entNoDate : Entry :=
  { entryId := some "nd", title := some "NoDate", published := none
    published_parsed := none, enclosures := [audEnc] }

/-- Entry with a parsed date of 200 and an audio enclosure. -/
def entNew : Entry :=
  { entryId := some "new", title := some "New", published := some "Mon, new"
    published_parsed := some 200, enclosures := [audEnc] }

/-- A feed over the given entries. -/
def mkFeed (es : List Entry) : Feed :=
  { name := "P", rss := "http://feed.example/rss", entries := es }

/-- The single-utterance response body of the spec's worked example. -/
def uttExample : Utterance :=
  { speaker := some "A", text := some "hello"
    start := some { num := 655, den := 10 } }

/-- A segment fixture. -/
def segExample : Segment := { speaker := some "A", text := some "some words" }

/-- A done response with the given result. -/
def doneResp (r : Option ResultDict) : GladiaResponse :=
  { status := "done", result := r, error_code := none }

/-- A result dict with only the given `transcription` value. -/
def onlyTrans (tv : TransValue) : ResultDict :=
  { transcription := some tv, utterances := none, segments := none
    full_transcript := none }

/-- Initial Task Record fixture. -/
def taskFix : TaskRec :=
  { type := "transcribe", status := "pending", message := "Starting..."
    episode_title := "E", created_at := 0 }

/-- Episode data fixture with all fields present. -/
def edFix : EpisodeData :=
  { podcast_name := some "P", title := some "E"
    audio_url := some "http://x/a.mp3", id := some "abc_1" }

/-- Environment in which both `save_status` calls fail (for instance the
status file is unwritable) and everything else succeeds. -/
def envSavesFail : JobEnv :=
  { makedirsRes := Except.ok (), downloadRes := Except.ok "p/audio.mp3"
    gladiaRes := Except.ok "text", saveTransRes := Except.ok "p/transcript.txt"
    loadRes1 := Except.ok [], saveRes1 := Except.error "disk full"
    loadRes2 := Except.ok [], saveRes2 := Except.error "disk full" }

/-- Environment in which the download raises and the handler's status
round-trip succeeds. -/
def envDownFail : JobEnv :=
  { makedirsRes := Except.ok (), downloadRes := Except.error "boom"
    gladiaRes := Except.ok "text", saveTransRes := Except.ok "p/transcript.txt"
    loadRes1 := Except.ok [], saveRes1 := Except.ok ()
    loadRes2 := Except.ok [], saveRes2 := Except.ok () }

/-- Task registry fixture: an old completed task, an equally old pending
task, a recent error task. -/
def tasksFix : List (String × TaskRec) :=
  [("a", { taskFix with status := "completed", created_at := 100 }),
   ("b", { taskFix with status := "pending", created_at := 100 }),
   ("c", { taskFix with status := "error", created_at := 9000 })]

/-- Status Store contents (file layer) fixtures. -/
def sjOld : SJMap := [("ep1", [("status", "completed")])]

def sjNew : SJMap := [("ep2", [("status", "error")])]

/-! ## Theorems -/

/-- Known-answer test: MD5 of the empty message. -/
theorem md5_empty_vector : md5HexStr "" = "d41d8cd98f00b204e9800998ecf8427e" := by
  decide

/-- Known-answer test: MD5 of `"abc"`. -/
theorem md5_abc_vector : md5HexStr "abc" = "900150983cd24fb0d6963f7d28e17f72" := by
  decide

/-- Sanity: the derived ID of an entry with no provider ID and no title
uses the placeholder title hash
(`md5("http://feed.example/rss") = cb418b7e...`,
`md5("Unknown Title") = 3ff03eb2bab0...`). -/
theorem derive_id_placeholder_example :
    episodeIdOfEntry "http://feed.example/rss"
      { entryId := none, title := none, published := none
        published_parsed := none, enclosures := [] } =
      "cb418b7e_3ff03eb2bab0" := by
  decide

/-- C3: the episode ID derivation. The derivation inlined in
`GET /episodes` and the one inlined in `POST /transcribe/{episode_id}`
compute the same ID for the same feed URL and entry, and both equal the
spec's formula `"{feed_hash}_{episode_base}"` with `feed_hash` the first
8 hex characters of `MD5(feed_url)` and `episode_base` the
provider-supplied identifier when present and non-empty, otherwise the
first 12 hex characters of the MD5 of the title (placeholder
`"Unknown Title"` when absent).  Determinism is immediate: both sides
are functions of `(rss, e)` alone. -/
theorem c3_derive_id :
    ∀ (rss : String) (e : Entry),
      episodeIdOfEntry rss e = episodeIdTranscribe rss e ∧
      episodeIdOfEntry rss e = specDeriveId rss e := by
  intro rss e
  refine ⟨rfl, ?_⟩
  cases h : e.entryId with
  | none => simp [episodeIdOfEntry, specDeriveId, h]
  | some s =>
    by_cases hs : s = "" <;>
      simp [episodeIdOfEntry, specDeriveId, h, hs]

/-- C4 counterexample: a `done` response whose only content is a
root-level `full_transcript` string is not returned verbatim — the
source never checks `full_transcript` at the result root, so it raises
`NoTranscriptData` instead. -/
theorem c4_root_full_transcript_not_returned :
    pollStep (doneResp (some
      { transcription := none, utterances := none, segments := none
        full_transcript := some "hi there" })) =
      PollStep.raiseErr NormErr.noTranscriptData ∧
    pollStep (doneResp (some
      { transcription := none, utterances := none, segments := none
        full_transcript := some "hi there" })) ≠
      PollStep.ret "hi there" := by
  exact ⟨rfl, by decide⟩

/-- C4 as amended: in a `done` result the normalizer checks, in order,
utterances, `full_transcript`, segments under the nested `transcription`
object; at the result root only utterance lists and segment lists are
checked (a sole full-transcript string is recognized only when nested);
utterances render as `"Speaker {speaker} | MM:SS.mmm\n{text}\n\n"`
blocks, a nested sole full transcript is returned verbatim, and segments
render as `"[{speaker}]: {text}\n"` lines, each joined and trimmed; the
worked examples hold: `start = 65.5` renders as `01:05.500`, and a
nested `full_transcript: "hi there"` is returned verbatim. -/
theorem c4_amended :
    (∀ (us : List Utterance) (ft : Option String) (segs : Option (List Segment)),
      pollStep (doneResp (some (onlyTrans (TransValue.dict (some us) ft segs)))) =
        PollStep.ret (renderUtterances us)) ∧
    (∀ (ft : String) (segs : Option (List Segment)),
      pollStep (doneResp (some (onlyTrans (TransValue.dict none (some ft) segs)))) =
        PollStep.ret ft) ∧
    (∀ (segs : List Segment),
      pollStep (doneResp (some (onlyTrans (TransValue.dict none none (some segs))))) =
        PollStep.ret (renderSegments segs)) ∧
    (∀ (us : List Utterance),
      pollStep (doneResp (some
        { transcription := none, utterances := some us, segments := none
          full_transcript := none })) = PollStep.ret (renderUtterances us)) ∧
    (∀ (segs : List Segment),
      pollStep (doneResp (some
        { transcription := none, utterances := none, segments := some segs
          full_transcript := none })) = PollStep.ret (renderSegments segs)) ∧
    (∀ (ft : String),
      pollStep (doneResp (some
        { transcription := none, utterances := none, segments := none
          full_transcript := some ft })) =
        PollStep.raiseErr NormErr.noTranscriptData) ∧
    pollStep (doneResp (some (onlyTrans
        (TransValue.dict (some [uttExample]) none none)))) =
      PollStep.ret "Speaker A | 01:05.500\nhello" ∧
    pollStep (doneResp (some
      { transcription := none, utterances := some [uttExample]
        segments := none, full_transcript := none })) =
      PollStep.ret "Speaker A | 01:05.500\nhello" ∧
    pollStep (doneResp (some (onlyTrans
        (TransValue.dict none (some "hi there") none)))) =
      PollStep.ret "hi there" ∧
    pollStep (doneResp (some (onlyTrans
        (TransValue.dict none none (some [segExample]))))) =
      PollStep.ret "[A]: some words" := by
  refine ⟨fun us ft segs => rfl, fun ft segs => rfl, fun segs => rfl,
    fun us => rfl, fun segs => rfl, fun ft => rfl, ?_, ?_, rfl, ?_⟩ <;> decide

/-- C5: a `done` result carrying a `transcription` object that is a dict
with none of the recognized keys takes no branch of the shape chain:
the loop sleeps and polls again forever instead of raising
`NoTranscriptData` (the inner if/elif chain has no final `else`).  The
surrounding cases behave as claimed: a result with no recognized shape
at all raises `NoTranscriptData` (whether the result is falsy or a dict
without those keys), and a terminal `error` status raises a provider
error carrying `error_code` (default `"Unknown error"`). -/
theorem c5_empty_transcription_repolls_forever :
    pollStep (doneResp (some (onlyTrans (TransValue.dict none none none)))) =
      PollStep.again ∧
    pollStep (doneResp none) = PollStep.raiseErr NormErr.noTranscriptData ∧
    pollStep (doneResp (some
      { transcription := none, utterances := none, segments := none
        full_transcript := none })) =
      PollStep.raiseErr NormErr.noTranscriptData ∧
    pollStep { status := "error", result := none, error_code := some "E" } =
      PollStep.raiseErr (NormErr.providerError "E") ∧
    pollStep { status := "error", result := none, error_code := none } =
      PollStep.raiseErr (NormErr.providerError "Unknown error") := by
  exact ⟨rfl, rfl, rfl, by decide, by decide⟩

/-- C8 counterexample: `save_status` is truncate-then-write; interrupting
it after the truncation (the one-operation prefix) leaves an empty file.
The empty file fails to parse — the subsequent load yields neither the
previous complete mapping nor the new one but a `JSONDecodeError` —
while both complete serializations load back intact. -/
theorem c8_interrupted_save_corrupts :
    applyFileOps (serializeStatus sjOld) ((save_status_ops sjNew).take 1) = "" ∧
    load_status_file (some "") = Except.error "JSONDecodeError" ∧
    load_status_file (some (serializeStatus sjOld)) = Except.ok sjOld ∧
    load_status_file (some (serializeStatus sjNew)) = Except.ok sjNew := by
  exact ⟨rfl, rfl, rfl, rfl⟩

/-- C8 as amended: `save_status` rewrites the whole file in place rather
than atomically: a completed save leaves exactly the new mapping's
serialization whatever the prior content was (so completed saves are
last-writer-wins), but a save interrupted between the truncating open
and the write leaves the empty string, which `load_status` cannot parse
(`JSONDecodeError` escapes it); only a missing file is tolerated,
loading as the empty mapping. -/
theorem c8_amended :
    (∀ (m : SJMap) (prior : String),
      applyFileOps prior (save_status_ops m) = serializeStatus m) ∧
    (∀ (m : SJMap) (prior : String),
      applyFileOps prior ((save_status_ops m).take 1) = "") ∧
    load_status_file (some "") = Except.error "JSONDecodeError" ∧
    load_status_file none = Except.ok [] := by
  refine ⟨?_, fun m prior => rfl, rfl, rfl⟩
  intro m prior
  show "" ++ serializeStatus m = serializeStatus m
  cases serializeStatus m
  rfl

/-- The entry loop of `start_transcription` finds nothing exactly when no
audio-bearing entry of the list derives the requested ID. -/
theorem searchEntries_eq_none_iff (rss pn eid : String) (l : List Entry) :
    searchEntries rss pn eid l = none ↔
      ∀ e ∈ l, ∀ url, firstAudioUrl e.enclosures = some url →
        episodeIdTranscribe rss e ≠ eid := by
  induction l with
  | nil => simp [searchEntries]
  | cons e rest ih =>
    cases haud : firstAudioUrl e.enclosures with
    | none => simp [searchEntries, haud, ih]
    | some url =>
      by_cases hid : episodeIdTranscribe rss e = eid
      · simp only [searchEntries, haud, hid, if_pos rfl]
        constructor
        · intro h
          exact absurd h (by simp)
        · intro h
          exact absurd hid (h e (by simp) url haud)
      · simp only [searchEntries, haud, if_neg hid]
        rw [ih]
        constructor
        · intro h
          intro e' he' url' hurl'
          rcases List.mem_cons.mp he' with rfl | hmem
          · rw [haud] at hurl'
            cases hurl'
            exact hid
          · exact h e' hmem url' hurl'
        · intro h e' he' url' hurl'
          exact h e' (List.mem_cons_of_mem _ he') url' hurl'

/-- The feed loop of `start_transcription` finds nothing exactly when no
audio-bearing entry of any feed derives the requested ID. -/
theorem searchFeeds_eq_none_iff (eid : String) (fs : List Feed) :
    searchFeeds eid fs = none ↔
      ∀ f ∈ fs, ∀ e ∈ f.entries, ∀ url,
        firstAudioUrl e.enclosures = some url →
          episodeIdTranscribe f.rss e ≠ eid := by
  induction fs with
  | nil => simp [searchFeeds]
  | cons f rest ih =>
    by_cases hemp : f.entries.isEmpty
    · have hnil : f.entries = [] := List.isEmpty_iff.mp hemp
      simp [searchFeeds, hemp, ih, hnil]
    · have hcons : searchFeeds eid (f :: rest) =
        (match searchEntries f.rss f.name eid f.entries with
         | some t => some t
         | none => searchFeeds eid rest) := by
        simp [searchFeeds, hemp]
      cases hse : searchEntries f.rss f.name eid f.entries with
      | some t =>
        rw [hcons, hse]
        constructor
        · intro h
          cases h
        · intro h
          have hn := (searchEntries_eq_none_iff f.rss f.name eid f.entries).mpr
            (h f (List.mem_cons_self f rest))
          rw [hn] at hse
          cases hse
      | none =>
        rw [hcons, hse, ih]
        constructor
        · intro h f' hf' e he url hurl
          rcases List.mem_cons.mp hf' with rfl | hmem
          · exact (searchEntries_eq_none_iff f'.rss f'.name eid
              f'.entries).mp hse e he url hurl
          · exact h f' hmem e he url hurl
        · intro h f' hf'
          exact h f' (List.mem_cons_of_mem _ hf')

/-- The completed-guard holds exactly when the Status Store maps the ID
to a record whose status is `completed`. -/
theorem alreadyCompleted_iff (st : List (String × StatusRec)) (eid : String) :
    alreadyCompleted st eid = true ↔
      ∃ r, pyLookup st eid = some r ∧ r.status = "completed" := by
  cases h : pyLookup st eid <;> simp [alreadyCompleted, h]

/-- C6: `POST /transcribe/{episode_id}` answers 404 when no feed entry
resolves to the ID (equivalently: no audio-bearing entry of any feed
derives it), answers 400 when the Status Store already maps the ID to a
`completed` record — in both cases returning the task registry
unchanged, so no Task Record is created and no job is started — and
otherwise registers exactly one new pending Task Record and returns its
`{task_id, message}`. -/
theorem c6_transcribe_request :
    ∀ (feeds : List Feed) (st : List (String × StatusRec))
      (tasks : List (String × TaskRec)) (eid : String) (epochNow nowIso : Nat),
      (start_transcription feeds st tasks eid epochNow nowIso =
        match searchFeeds eid feeds with
        | none =>
          (tasks, Except.error { status_code := 404, detail := "Episode not found" })
        | some target =>
          if alreadyCompleted st eid then
            (tasks,
             Except.error { status_code := 400, detail := "Episode already transcribed" })
          else
            (pyInsertTask tasks ("transcribe_" ++ eid ++ "_" ++ toString epochNow)
              { type := "transcribe", status := "pending", message := "Starting..."
                episode_title := target.title, created_at := nowIso },
             Except.ok
               { task_id := "transcribe_" ++ eid ++ "_" ++ toString epochNow
                 message := "Transcription task started" })) ∧
      (searchFeeds eid feeds = none ↔
        ∀ f ∈ feeds, ∀ e ∈ f.entries, ∀ url,
          firstAudioUrl e.enclosures = some url →
            episodeIdTranscribe f.rss e ≠ eid) ∧
      (alreadyCompleted st eid = true ↔
        ∃ r, pyLookup st eid = some r ∧ r.status = "completed") := by
  intro feeds st tasks eid epochNow nowIso
  exact ⟨rfl, searchFeeds_eq_none_iff eid feeds, alreadyCompleted_iff st eid⟩

/-- Membership in a stable descending insertion. -/
theorem mem_insertDescBy (key : Entry → Nat) (x a : Entry) (l : List Entry) :
    a ∈ insertDescBy key x l ↔ a = x ∨ a ∈ l := by
  induction l with
  | nil => simp [insertDescBy]
  | cons y ys ih =>
    by_cases h : key x ≤ key y
    · simp only [insertDescBy, if_pos h, List.mem_cons, ih]
      tauto
    · simp only [insertDescBy, if_neg h, List.mem_cons]

/-- Insertion preserves the descending-key pairwise invariant. -/
theorem pairwise_insertDescBy (key : Entry → Nat) (x : Entry) (l : List Entry)
    (h : l.Pairwise (fun a b => key b ≤ key a)) :
    (insertDescBy key x l).Pairwise (fun a b => key b ≤ key a) := by
  induction l with
  | nil => simp [insertDescBy]
  | cons y ys ih =>
    rcases List.pairwise_cons.mp h with ⟨hy, hys⟩
    by_cases hxy : key x ≤ key y
    · simp only [insertDescBy, if_pos hxy]
      refine List.pairwise_cons.mpr ⟨?_, ih hys⟩
      intro z hz
      rcases (mem_insertDescBy key x z ys).mp hz with rfl | hmem
      · exact hxy
      · exact hy z hmem
    · simp only [insertDescBy, if_neg hxy]
      refine List.pairwise_cons.mpr ⟨?_, h⟩
      intro z hz
      rcases List.mem_cons.mp hz with rfl | hmem
      · exact Nat.le_of_lt (Nat.lt_of_not_le hxy)
      · exact Nat.le_trans (hy z hmem) (Nat.le_of_lt (Nat.lt_of_not_le hxy))

/-- The per-feed pre-sort is a permutation in the membership sense. -/
theorem mem_sortEntriesDesc (l : List Entry) (a : Entry) :
    a ∈ sortEntriesDesc l ↔ a ∈ l := by
  induction l with
  | nil => simp [sortEntriesDesc]
  | cons y ys ih =>
    show a ∈ insertDescBy entrySortKey y (sortEntriesDesc ys) ↔ a ∈ y :: ys
    rw [mem_insertDescBy, List.mem_cons, ih]

/-- The per-feed pre-sort is descending in the sort key. -/
theorem pairwise_sortEntriesDesc (l : List Entry) :
    (sortEntriesDesc l).Pairwise
      (fun a b => entrySortKey b ≤ entrySortKey a) := by
  induction l with
  | nil => simp [sortEntriesDesc]
  | cons y ys ih => exact pairwise_insertDescBy _ y _ ih

/-- No episode produced by the per-entry scan carries a parsed date older
than the cutoff. -/
theorem scanEntries_dated_not_old (st : List (String × StatusRec))
    (cutoff : Nat) (pn rss : String) (l : List Entry) :
    ∀ ep ∈ scanEntries st cutoff pn rss l,
      ∀ d, ep.pub_date_parsed = some d → ¬ d < cutoff := by
  induction l with
  | nil => simp [scanEntries]
  | cons e rest ih =>
    cases haud : firstAudioUrl e.enclosures with
    | none =>
      intro ep hep d hd
      simp only [scanEntries, haud] at hep
      exact ih ep hep d hd
    | some url =>
      cases hpp : e.published_parsed with
      | some d0 =>
        by_cases hlt : d0 < cutoff
        · intro ep hep d hd
          simp only [scanEntries, haud, hpp, if_pos hlt] at hep
          cases hep
        · intro ep hep d hd
          simp only [scanEntries, haud, hpp, if_neg hlt] at hep
          rcases List.mem_cons.mp hep with rfl | hmem
          · have hdd : some d0 = some d := by
              rw [← hpp, ← hd]
              simp [episodeOfEntry, hpp]
            cases hdd
            exact hlt
          · exact ih ep hmem d hd
      | none =>
        intro ep hep d hd
        simp only [scanEntries, haud, hpp] at hep
        rcases List.mem_cons.mp hep with rfl | hmem
        · simp [episodeOfEntry, hpp] at hd
        · exact ih ep hmem d hd

/-- When no audio-bearing entry of the list is older than the cutoff, the
scan never breaks, so every audio-bearing dateless entry contributes its
episode. -/
theorem scanEntries_includes_dateless (st : List (String × StatusRec))
    (cutoff : Nat) (pn rss : String) (l : List Entry)
    (hno : ∀ e ∈ l, ∀ url, firstAudioUrl e.enclosures = some url →
      ∀ d, e.published_parsed = some d → ¬ d < cutoff) :
    ∀ e ∈ l, ∀ url, firstAudioUrl e.enclosures = some url →
      e.published_parsed = none →
        episodeOfEntry st pn rss url e ∈ scanEntries st cutoff pn rss l := by
  induction l with
  | nil =>
    intro e he
    cases he
  | cons e0 rest ih =>
    intro e he url hurl hnone
    have hnoRest : ∀ e ∈ rest, ∀ url, firstAudioUrl e.enclosures = some url →
        ∀ d, e.published_parsed = some d → ¬ d < cutoff :=
      fun e' he' => hno e' (List.mem_cons_of_mem _ he')
    cases haud : firstAudioUrl e0.enclosures with
    | none =>
      simp only [scanEntries, haud]
      rcases List.mem_cons.mp he with rfl | hmem
      · rw [haud] at hurl
        cases hurl
      · exact ih hnoRest e hmem url hurl hnone
    | some url0 =>
      cases hpp : e0.published_parsed with
      | some d0 =>
        have hnotold : ¬ d0 < cutoff :=
          hno e0 (List.mem_cons_self e0 rest) url0 haud d0 hpp
        simp only [scanEntries, haud, hpp, if_neg hnotold]
        rcases List.mem_cons.mp he with rfl | hmem
        · rw [hpp] at hnone
          cases hnone
        · exact List.mem_cons_of_mem _ (ih hnoRest e hmem url hurl hnone)
      | none =>
        simp only [scanEntries, haud, hpp]
        rcases List.mem_cons.mp he with rfl | hmem
        · rw [haud] at hurl
          cases hurl
          exact List.mem_cons_self _ _
        · exact List.mem_cons_of_mem _ (ih hnoRest e hmem url hurl hnone)

/-- On a date-descending list with positive genuine dates, the presence
of any audio-bearing entry older than the cutoff prevents every dateless
entry from contributing an episode: dateless entries sort to the tail
(key 0), so the break at the first old entry cuts them off. -/
theorem scanEntries_excludes_dateless (st : List (String × StatusRec))
    (cutoff : Nat) (pn rss : String) (l : List Entry)
    (hpw : l.Pairwise (fun a b => entrySortKey b ≤ entrySortKey a))
    (hpos : ∀ e ∈ l, ∀ d, e.published_parsed = some d → 0 < d)
    (hex : ∃ e ∈ l, (∃ url, firstAudioUrl e.enclosures = some url) ∧
      ∃ d, e.published_parsed = some d ∧ d < cutoff) :
    ∀ ep ∈ scanEntries st cutoff pn rss l, ep.pub_date_parsed ≠ none := by
  induction l with
  | nil =>
    rcases hex with ⟨e, he, _⟩
    cases he
  | cons e0 rest ih =>
    intro ep hep
    rcases List.pairwise_cons.mp hpw with ⟨hhead, htail⟩
    have hposRest : ∀ e ∈ rest, ∀ d, e.published_parsed = some d → 0 < d :=
      fun e' he' => hpos e' (List.mem_cons_of_mem _ he')
    cases haud : firstAudioUrl e0.enclosures with
    | none =>
      simp only [scanEntries, haud] at hep
      rcases hex with ⟨ew, hew, ⟨urlw, hurlw⟩, hdw⟩
      rcases List.mem_cons.mp hew with rfl | hmemw
      · rw [haud] at hurlw
        cases hurlw
      · exact ih htail hposRest ⟨ew, hmemw, ⟨urlw, hurlw⟩, hdw⟩ ep hep
    | some url0 =>
      cases hpp : e0.published_parsed with
      | some d0 =>
        by_cases hlt : d0 < cutoff
        · simp only [scanEntries, haud, hpp, if_pos hlt] at hep
          cases hep
        · simp only [scanEntries, haud, hpp, if_neg hlt] at hep
          rcases List.mem_cons.mp hep with rfl | hmem
          · simp [episodeOfEntry, hpp]
          · rcases hex with ⟨ew, hew, hau, dw, hdw, hdlt⟩
            rcases List.mem_cons.mp hew with rfl | hmemw
            · rw [hpp] at hdw
              cases hdw
              exact absurd hdlt hlt
            · exact ih htail hposRest ⟨ew, hmemw, hau, dw, hdw, hdlt⟩ ep hmem
      | none =>
        exfalso
        rcases hex with ⟨ew, hew, hau, dw, hdw, hdlt⟩
        rcases List.mem_cons.mp hew with rfl | hmemw
        · rw [hpp] at hdw
          cases hdw
        · have hk : entrySortKey ew ≤ entrySortKey e0 := hhead ew hmemw
          have hkw : entrySortKey ew = dw := by simp [entrySortKey, hdw]
          have hk0 : entrySortKey e0 = 0 := by simp [entrySortKey, hpp]
          have hposw : 0 < dw :=
            hpos ew (List.mem_cons_of_mem _ hmemw) dw hdw
          omega

/-- C2 counterexample: a feed whose dated entry (timestamp 50, audio
enclosure) is older than the cutoff (100) and whose other entry has an
audio enclosure but no parsed date.  The dateless entry sorts last, the
break at the old entry fires first, and `GET /episodes` returns the
empty list — the dateless entry is not included, although nothing
date-filters it directly. -/
theorem c2_break_drops_dateless_entry :
    entNoDate.published_parsed = none ∧
    firstAudioUrl entNoDate.enclosures = some "http://x/a.mp3" ∧
    entNoDate ∈ (mkFeed [entOld, entNoDate]).entries ∧
    getEpisodes [mkFeed [entOld, entNoDate]] [] 100 100 = Except.ok [] := by
  exact ⟨rfl, rfl, by decide, rfl⟩

/-- C2 as amended: in `GET /episodes`, per feed (hypotheses: genuine
parsed dates are positive timestamps, as every real `published_parsed`
tuple exceeds the all-zero default), (1) every episode carrying a parsed
date older than the cutoff is excluded; (2) when the feed has no
audio-bearing entry older than the cutoff, every audio-bearing entry
lacking a parsed date is included; but (3) when the feed does contain an
audio-bearing entry with a parsed date older than the cutoff, no entry
lacking a parsed date contributes any episode: dateless entries sort to
the end of the per-feed iteration, so the early break at the first
too-old entry drops them — they are not "always included". -/
theorem c2_amended (st : List (String × StatusRec)) (cutoff : Nat) (f : Feed)
    (hpos : ∀ e ∈ f.entries, ∀ d, e.published_parsed = some d → 0 < d) :
    (∀ ep ∈ feedEpisodes st cutoff f,
      ∀ d, ep.pub_date_parsed = some d → ¬ d < cutoff) ∧
    ((∀ e ∈ f.entries, ∀ url, firstAudioUrl e.enclosures = some url →
        ∀ d, e.published_parsed = some d → ¬ d < cutoff) →
      ∀ e ∈ f.entries, ∀ url, firstAudioUrl e.enclosures = some url →
        e.published_parsed = none →
          episodeOfEntry st f.name f.rss url e ∈ feedEpisodes st cutoff f) ∧
    ((∃ e ∈ f.entries, (∃ url, firstAudioUrl e.enclosures = some url) ∧
        ∃ d, e.published_parsed = some d ∧ d < cutoff) →
      ∀ ep ∈ feedEpisodes st cutoff f, ep.pub_date_parsed ≠ none) := by
  by_cases hemp : f.entries.isEmpty
  · have hnil : f.entries = [] := List.isEmpty_iff.mp hemp
    refine ⟨?_, ?_, ?_⟩
    · intro ep hep
      simp [feedEpisodes, hemp] at hep
    · intro _ e he
      rw [hnil] at he
      cases he
    · intro _ ep hep
      simp [feedEpisodes, hemp] at hep
  · have hfe : feedEpisodes st cutoff f =
        scanEntries st cutoff f.name f.rss (sortEntriesDesc f.entries) := by
      simp [feedEpisodes, hemp]
    refine ⟨?_, ?_, ?_⟩
    · intro ep hep
      rw [hfe] at hep
      exact scanEntries_dated_not_old st cutoff f.name f.rss _ ep hep
    · intro hno e he url hurl hnone
      rw [hfe]
      exact scanEntries_includes_dateless st cutoff f.name f.rss _
        (fun e' he' => hno e' ((mem_sortEntriesDesc f.entries e').mp he'))
        e ((mem_sortEntriesDesc f.entries e).mpr he) url hurl hnone
    · intro hex ep hep
      rw [hfe] at hep
      refine scanEntries_excludes_dateless st cutoff f.name f.rss _
        (pairwise_sortEntriesDesc f.entries)
        (fun e' he' => hpos e' ((mem_sortEntriesDesc f.entries e').mp he'))
        ?_ ep hep
      rcases hex with ⟨ew, hew, hau, hdw⟩
      exact ⟨ew, (mem_sortEntriesDesc f.entries ew).mpr hew, hau, hdw⟩

/-- C2 witness: the amended statement instantiated at the
counterexample's feed (old dated entry plus dateless entry, cutoff 100),
whose dates are positive. -/
theorem c2_amended_witness :
    (∀ ep ∈ feedEpisodes [] 100 (mkFeed [entOld, entNoDate]),
      ∀ d, ep.pub_date_parsed = some d → ¬ d < 100) ∧
    ((∀ e ∈ (mkFeed [entOld, entNoDate]).entries, ∀ url,
        firstAudioUrl e.enclosures = some url →
        ∀ d, e.published_parsed = some d → ¬ d < 100) →
      ∀ e ∈ (mkFeed [entOld, entNoDate]).entries, ∀ url,
        firstAudioUrl e.enclosures = some url →
        e.published_parsed = none →
          episodeOfEntry [] (mkFeed [entOld, entNoDate]).name
            (mkFeed [entOld, entNoDate]).rss url e ∈
            feedEpisodes [] 100 (mkFeed [entOld, entNoDate])) ∧
    ((∃ e ∈ (mkFeed [entOld, entNoDate]).entries,
        (∃ url, firstAudioUrl e.enclosures = some url) ∧
        ∃ d, e.published_parsed = some d ∧ d < 100) →
      ∀ ep ∈ feedEpisodes [] 100 (mkFeed [entOld, entNoDate]),
        ep.pub_date_parsed ≠ none) :=
  c2_amended [] 100 (mkFeed [entOld, entNoDate]) (by
    intro e he d hd
    rcases List.mem_cons.mp he with rfl | he2
    · simp [entOld] at hd
      omega
    · rcases List.mem_cons.mp he2 with rfl | he3
      · simp [entNoDate] at hd
      · cases he3)

/-- C9: the Task Registry sweep.  With distinct task IDs (a Python dict
guarantees this), the sweep keeps the surviving records in place (it is
a sublist of the registry) and removes exactly the records whose status
is terminal (`completed` or `error`) and whose age exceeds one hour
(strictly more than 3600 seconds since `created_at`); `pending` and
`running` records survive regardless of age, as do terminal records
within the retention window. -/
theorem c9_sweep (now : Nat) (tasks : List (String × TaskRec))
    (h : (tasks.map Prod.fst).Nodup) :
    (cleanup_old_tasks now tasks).Sublist tasks ∧
    ∀ p, p ∈ cleanup_old_tasks now tasks ↔
      (p ∈ tasks ∧ ¬((p.2.status = "completed" ∨ p.2.status = "error") ∧
        3600 < (now : Int) - (p.2.created_at : Int))) := by
  constructor
  · exact List.filter_sublist tasks
  · intro p
    constructor
    · intro hp
      rcases List.mem_filter.mp hp with ⟨hmem, hkeep⟩
      refine ⟨hmem, ?_⟩
      intro hcond
      have hstale : p.1 ∈ staleTaskIds now tasks := by
        unfold staleTaskIds
        exact List.mem_map_of_mem Prod.fst
          (List.mem_filter.mpr ⟨hmem, by simpa using hcond⟩)
      rw [decide_eq_true_eq] at hkeep
      exact hkeep hstale
    · intro ⟨hmem, hcond⟩
      refine List.mem_filter.mpr ⟨hmem, ?_⟩
      rw [decide_eq_true_eq]
      intro hstale
      unfold staleTaskIds at hstale
      rcases List.mem_map.mp hstale with ⟨q, hq, hfst⟩
      rcases List.mem_filter.mp hq with ⟨hqmem, hqcond⟩
      have : q = p := List.inj_on_of_nodup_map h hqmem hmem hfst
      subst this
      exact hcond (by simpa using hqcond)

/-- C9 witness: the sweep over a registry holding an hour-old completed
task, an equally old pending task and a fresh error task keeps a
sublist, and the old pending record is kept (the membership
characterization at that record). -/
theorem c9_sweep_witness :
    (cleanup_old_tasks 10000 tasksFix).Sublist tasksFix ∧
    (("b", { taskFix with status := "pending", created_at := 100 }) ∈
        cleanup_old_tasks 10000 tasksFix ↔
      (("b", { taskFix with status := "pending", created_at := 100 }) ∈
          tasksFix ∧
        ¬((({ taskFix with status := "pending", created_at := 100 } :
              TaskRec).status = "completed" ∨
           ({ taskFix with status := "pending", created_at := 100 } :
              TaskRec).status = "error") ∧
          3600 < ((10000 : Nat) : Int) - (((( { taskFix with
            status := "pending", created_at := 100 } : TaskRec)).created_at :
              Nat) : Int)))) :=
  ⟨(c9_sweep 10000 tasksFix (by decide)).1,
   (c9_sweep 10000 tasksFix (by decide)).2
     ("b", { taskFix with status := "pending", created_at := 100 })⟩

/-- When the Task Record exists and the handler's own Status Store
round-trip succeeds, the `except` handler terminates the job cleanly:
error Task Record, one error Status Record insert, nothing propagated. -/
theorem jobHandler_ok (env : JobEnv) (tr : TaskRec)
    (eid pn et nowIso e : String) (m2 : List (String × StatusRec))
    (hL : env.loadRes2 = Except.ok m2) (hS : env.saveRes2 = Except.ok ()) :
    jobHandler env (some tr) eid pn et nowIso e =
      { task := some { tr with status := "error", message := "Error: " ++ e }
        saves := [pyInsert m2 eid (errorStatusRec e nowIso pn et)]
        propagated := none
        retVal := some none } := by
  simp [jobHandler, taskSetStatus, taskSetMessage, hL, hS]

/-- C7 counterexample: when `save_status` fails inside the `try` (here
with "disk full") and fails again inside the `except` handler, the Task
Record is marked `error` but no error Status Record is ever written and
the exception escapes `transcribe_episode` into the job thread — the
claim's "recorded as an error Status Record" and "not propagated" both
fail. -/
theorem c7_status_write_failure_escapes :
    transcribe_episode envSavesFail edFix (some taskFix) "T" =
      { task := some { taskFix with
          status := "error", message := "Error: disk full" }
        saves := []
        propagated := some "disk full"
        retVal := none } := by
  rfl

/-- C7 as amended: provided the Task Record exists and the handler's own
`load_status`/`save_status` calls succeed, an exception raised at any
stage of the job is caught: nothing propagates out of
`transcribe_episode` (it always returns), and whenever the handler path
is taken (the run returns `None`) some exception message `e` is recorded
both in the Task Record (`status = "error"`, `message = "Error: {e}"`)
and as the sole error Status Record written for the episode ID (with
`error` and `failed_at`).  When the handler's own status write fails,
the exception instead escapes — see the counterexample. -/
theorem c7_amended (env : JobEnv) (ed : EpisodeData) (t0 : TaskRec)
    (nowIso : String) (m2 : List (String × StatusRec))
    (hL : env.loadRes2 = Except.ok m2) (hS : env.saveRes2 = Except.ok ()) :
    (transcribe_episode env ed (some t0) nowIso).propagated = none ∧
    (transcribe_episode env ed (some t0) nowIso).retVal ≠ none ∧
    ((transcribe_episode env ed (some t0) nowIso).retVal = some none →
      ∃ e, (transcribe_episode env ed (some t0) nowIso).task =
          some { t0 with status := "error", message := "Error: " ++ e } ∧
        (transcribe_episode env ed (some t0) nowIso).saves =
          [pyInsert m2 (ed.id.getD "") (errorStatusRec e nowIso
            (ed.podcast_name.getD "podcast") (ed.title.getD "episode"))]) := by
  obtain ⟨mkR, dlR, glR, svR, l1R, s1R, l2R, s2R⟩ := env
  simp only at hL hS
  subst hL
  subst hS
  by_cases haud : ed.audio_url.getD "" = ""
  · simp only [transcribe_episode, taskSetStatus, taskSetMessage, if_pos haud,
      jobHandler_ok]
    exact ⟨rfl, Option.some_ne_none none, fun _ => ⟨"No audio URL provided", rfl, rfl⟩⟩
  · simp only [transcribe_episode, taskSetStatus, taskSetMessage, if_neg haud]
    cases mkR with
    | error e =>
      exact ⟨rfl, Option.some_ne_none none, fun _ => ⟨e, rfl, rfl⟩⟩
    | ok u =>
      cases u
      cases dlR with
      | error e =>
        exact ⟨rfl, Option.some_ne_none none, fun _ => ⟨e, rfl, rfl⟩⟩
      | ok ap =>
        cases glR with
        | error e =>
          exact ⟨rfl, Option.some_ne_none none, fun _ => ⟨e, rfl, rfl⟩⟩
        | ok tr =>
          cases svR with
          | error e =>
            exact ⟨rfl, Option.some_ne_none none, fun _ => ⟨e, rfl, rfl⟩⟩
          | ok tp =>
            cases l1R with
            | error e =>
              exact ⟨rfl, Option.some_ne_none none, fun _ => ⟨e, rfl, rfl⟩⟩
            | ok st1 =>
              cases s1R with
              | error e =>
                exact ⟨rfl, Option.some_ne_none none, fun _ => ⟨e, rfl, rfl⟩⟩
              | ok u1 =>
                cases u1
                exact ⟨rfl, Option.some_ne_none (some tp), fun hc => by simp at hc⟩

/-- C7 witness: the amended statement at a concrete run whose download
fails with "boom" while the handler's status round-trip succeeds. -/
theorem c7_amended_witness :
    (transcribe_episode envDownFail edFix (some taskFix) "T").propagated = none ∧
    (transcribe_episode envDownFail edFix (some taskFix) "T").retVal ≠ none ∧
    ((transcribe_episode envDownFail edFix (some taskFix) "T").retVal =
        some none →
      ∃ e, (transcribe_episode envDownFail edFix (some taskFix) "T").task =
          some { taskFix with status := "error", message := "Error: " ++ e } ∧
        (transcribe_episode envDownFail edFix (some taskFix) "T").saves =
          [pyInsert [] (edFix.id.getD "") (errorStatusRec e "T"
            (edFix.podcast_name.getD "podcast") (edFix.title.getD "episode"))]) :=
  c7_amended envDownFail edFix taskFix "T" [] rfl rfl

/-- Whatever the handler does, any Status Store mapping it saves is the
loaded mapping with an `error` record inserted at the episode ID. -/
theorem jobHandler_saves (env : JobEnv) (task : Option TaskRec)
    (eid pn et nowIso e : String) :
    ∀ m ∈ (jobHandler env task eid pn et nowIso e).saves,
      ∃ base r, m = pyInsert base eid r ∧ r.status = "error" := by
  intro m hm
  cases task with
  | none => simp [jobHandler, taskSetStatus] at hm
  | some tr =>
    cases hl2 : env.loadRes2 with
    | error e2 => simp [jobHandler, taskSetStatus, taskSetMessage, hl2] at hm
    | ok m2 =>
      cases hs2 : env.saveRes2 with
      | error e2 =>
        simp [jobHandler, taskSetStatus, taskSetMessage, hl2, hs2] at hm
      | ok u =>
        cases u
        simp only [jobHandler, taskSetStatus, taskSetMessage, hl2, hs2,
          List.mem_singleton] at hm
        exact ⟨m2, errorStatusRec e nowIso pn et, hm, rfl⟩

/-- C10: the Status Store invariant.  Every mapping `transcribe_episode`
ever saves — and it is the only writer of the store — is the mapping it
loaded with a record inserted at the episode ID whose status is
`"completed"` or `"error"`; no save carries a `pending` or `running`
record, and saves happen only in the two terminal paths of the job. -/
theorem c10_terminal_status_writes (env : JobEnv) (ed : EpisodeData)
    (task : Option TaskRec) (nowIso : String) :
    ∀ m ∈ (transcribe_episode env ed task nowIso).saves,
      ∃ base r, m = pyInsert base (ed.id.getD "") r ∧
        (r.status = "completed" ∨ r.status = "error") := by
  intro m hm
  obtain ⟨mkR, dlR, glR, svR, l1R, s1R, l2R, s2R⟩ := env
  cases task with
  | none =>
    simp [transcribe_episode, jobHandler, taskSetStatus] at hm
  | some t0 =>
    by_cases haud : ed.audio_url.getD "" = ""
    · simp only [transcribe_episode, taskSetStatus, taskSetMessage,
        if_pos haud] at hm
      rcases jobHandler_saves _ _ _ _ _ _ _ m hm with ⟨base, r, hmr, hr⟩
      exact ⟨base, r, hmr, Or.inr hr⟩
    · simp only [transcribe_episode, taskSetStatus, taskSetMessage,
        if_neg haud] at hm
      cases mkR with
      | error e =>
        rcases jobHandler_saves _ _ _ _ _ _ _ m hm with ⟨base, r, hmr, hr⟩
        exact ⟨base, r, hmr, Or.inr hr⟩
      | ok u =>
        cases u
        cases dlR with
        | error e =>
          rcases jobHandler_saves _ _ _ _ _ _ _ m hm with ⟨base, r, hmr, hr⟩
          exact ⟨base, r, hmr, Or.inr hr⟩
        | ok ap =>
          cases glR with
          | error e =>
            rcases jobHandler_saves _ _ _ _ _ _ _ m hm with ⟨base, r, hmr, hr⟩
            exact ⟨base, r, hmr, Or.inr hr⟩
          | ok tr =>
            cases svR with
            | error e =>
              rcases jobHandler_saves _ _ _ _ _ _ _ m hm with ⟨base, r, hmr, hr⟩
              exact ⟨base, r, hmr, Or.inr hr⟩
            | ok tp =>
              cases l1R with
              | error e =>
                rcases jobHandler_saves _ _ _ _ _ _ _ m hm with ⟨base, r, hmr, hr⟩
                exact ⟨base, r, hmr, Or.inr hr⟩
              | ok st1 =>
                cases s1R with
                | error e =>
                  rcases jobHandler_saves _ _ _ _ _ _ _ m hm with ⟨base, r, hmr, hr⟩
                  exact ⟨base, r, hmr, Or.inr hr⟩
                | ok u1 =>
                  cases u1
                  simp only [List.mem_singleton] at hm
                  exact ⟨st1,
                    completedStatusRec tp nowIso (ed.podcast_name.getD "podcast")
                      (ed.title.getD "episode"), hm, Or.inl rfl⟩

/-- C10 witness: the invariant at the failed-download run — the single
mapping saved there is an insert of an `error`-status record. -/
theorem c10_terminal_status_writes_witness :
    ∃ base r,
      pyInsert [] (edFix.id.getD "")
        (errorStatusRec "boom" "T" (edFix.podcast_name.getD "podcast")
          (edFix.title.getD "episode")) =
        pyInsert base (edFix.id.getD "") r ∧
      (r.status = "completed" ∨ r.status = "error") :=
  c10_terminal_status_writes envDownFail edFix (some taskFix) "T"
    (pyInsert [] (edFix.id.getD "")
      (errorStatusRec "boom" "T" (edFix.podcast_name.getD "podcast")
        (edFix.title.getD "episode")))
    (by decide)

/-- C1: the final sort of `GET /episodes` crashes on mixed dates.  The
episode dicts always contain the `pub_date_parsed` key (possibly `None`),
so the sort key default `''` never applies; as soon as the aggregate
holds two or more episodes and any of them lacks a parsed date, CPython
`list.sort` compares a `None` key and raises `TypeError`, and the
endpoint fails instead of returning a list.  Here a feed with one dated
(timestamp 200, inside the 100 cutoff) and one dateless audio entry
aggregates two episodes and the request fails.  When every episode has a
parsed date the claimed behaviour does hold: with cutoff 10 the same
model sorts the aggregate newest-first and truncates to `limit`. -/
theorem c1_mixed_dates_sort_crashes :
    (aggregateEpisodes [mkFeed [entNew, entNoDate]] [] 100).length = 2 ∧
    (aggregateEpisodes [mkFeed [entNew, entNoDate]] [] 100).any
      (fun ep => ep.pub_date_parsed.isNone) = true ∧
    getEpisodes [mkFeed [entNew, entNoDate]] [] 100 100 =
      Except.error SortErr.typeError ∧
    getEpisodes [mkFeed [entOld, entNew]] [] 10 5 =
      Except.ok
        [episodeOfEntry [] "P" "http://feed.example/rss" "http://x/a.mp3" entNew,
         episodeOfEntry [] "P" "http://feed.example/rss" "http://x/a.mp3" entOld] ∧
    getEpisodes [mkFeed [entOld, entNew]] [] 10 1 =
      Except.ok
        [episodeOfEntry [] "P" "http://feed.example/rss" "http://x/a.mp3" entNew] := by
  exact ⟨rfl, rfl, rfl, rfl, rfl⟩

/-- The `Int.fdiv` formulas inside `fmtTimestamp` compute exactly the
spec's floor formulas over the exact rational `x = n / d`:
`minutes = ⌊x / 60⌋`, `seconds = ⌊x - 60⌊x / 60⌋⌋` (that is,
`⌊x mod 60⌋`) and `milliseconds = ⌊(x - ⌊x⌋) * 1000⌋` (that is,
`⌊(x mod 1) * 1000⌋`). -/
theorem fmtTimestamp_matches_floor_formulas (n : Int) (d : Nat) (hd : 0 < d) :
    Int.fdiv n (60 * d) = ⌊(n : ℚ) / (d : ℚ) / 60⌋ ∧
    Int.fdiv n d - 60 * Int.fdiv n (60 * d) =
      ⌊(n : ℚ) / (d : ℚ) - 60 * (⌊(n : ℚ) / (d : ℚ) / 60⌋ : ℚ)⌋ ∧
    Int.fdiv (1000 * n) d - 1000 * Int.fdiv n d =
      ⌊((n : ℚ) / (d : ℚ) - (⌊(n : ℚ) / (d : ℚ)⌋ : ℚ)) * 1000⌋ := by
  have hx : (n : ℚ) / (d : ℚ) / 60 = (n : ℚ) / ((60 * d : ℕ) : ℚ) := by
    push_cast
    ring
  have h60d : (0 : ℤ) ≤ ((60 * d : ℕ) : ℤ) := Int.natCast_nonneg _
  have hdz : (0 : ℤ) ≤ ((d : ℕ) : ℤ) := Int.natCast_nonneg _
  have hA : Int.fdiv n (60 * d) = ⌊(n : ℚ) / (d : ℚ) / 60⌋ := by
    rw [hx, Rat.floor_intCast_div_natCast]
    rw [show ((60 * d : ℕ) : ℤ) = 60 * (d : ℤ) by push_cast; ring] at *
    exact Int.fdiv_eq_ediv n (by positivity)
  have hB : Int.fdiv n d = ⌊(n : ℚ) / (d : ℚ)⌋ := by
    rw [Rat.floor_intCast_div_natCast]
    exact Int.fdiv_eq_ediv n hdz
  have hC : Int.fdiv (1000 * n) d = ⌊(1000 * (n : ℚ)) / (d : ℚ)⌋ := by
    have : (1000 * (n : ℚ)) / (d : ℚ) = ((1000 * n : ℤ) : ℚ) / ((d : ℕ) : ℚ) := by
      push_cast
      ring
    rw [this, Rat.floor_intCast_div_natCast]
    exact Int.fdiv_eq_ediv (1000 * n) hdz
  refine ⟨hA, ?_, ?_⟩
  · rw [show (n : ℚ) / (d : ℚ) - 60 * (⌊(n : ℚ) / (d : ℚ) / 60⌋ : ℚ) =
        (n : ℚ) / (d : ℚ) - ((60 * ⌊(n : ℚ) / (d : ℚ) / 60⌋ : ℤ) : ℚ) by
      push_cast
      ring]
    rw [Int.floor_sub_int, ← hA, ← hB]
  · rw [show ((n : ℚ) / (d : ℚ) - (⌊(n : ℚ) / (d : ℚ)⌋ : ℚ)) * 1000 =
        1000 * ((n : ℚ) / (d : ℚ)) - ((1000 * ⌊(n : ℚ) / (d : ℚ)⌋ : ℤ) : ℚ) by
      push_cast
      ring]
    rw [Int.floor_sub_int, ← hB]
    rw [show ⌊(1000 : ℚ) * ((n : ℚ) / (d : ℚ))⌋ = ⌊1000 * (n : ℚ) / (d : ℚ)⌋ by
      rw [mul_div_assoc]]
    rw [← hC]
